import Mathlib

/-!
PS/2 mouse driver (`app/src/ps2_mouse.c`): packet decoder and frame assembler.

Shallow embedding of the movement path of the driver:

* `zmk_ps2_mouse_movement_parse_cmd_buffer` – the pure bit-level decoder,
* `zmk_ps2_mouse_movement_process_cmd` – decode and report one frame,
* `zmk_ps2_mouse_movement_reset_cmd_buffer` – clear the frame,
* `zmk_ps2_mouse_movement_callback` – the per-byte frame assembler,
* `zmk_ps2_mouse_movement_cmd_timout` – the inactivity-timeout handler,
* `zmk_ps2_mouse_init_thread` – the bring-up thread, with the two command
  functions `zmk_ps2_stream_mode_enable` and `zmk_ps2_stream_mode_enable_reporting`.

Conventions.  A `uint8_t` is a natural number below 256, an `int` / `int16_t`
is an integer; the narrowing store into an `int16_t` is the explicit wrap
`toInt16`.  The global `zmk_ps2_mouse_data` is passed explicitly.  Calls that
leave the module (timer cancel / schedule, the report of a decoded frame) are
recorded, in program order, in a list of `Effect`s.  An out-of-bounds store to
`cmd_buffer` has no defined behaviour in C and is modelled as `none`.
-/

namespace Ps2Mouse

/-! ## Machine-level helpers -/

/-- Macro `PS2_GPIO_GET_BIT(data, bit_pos)`: `((data >> bit_pos) & 0x1)`. -/
def PS2_GPIO_GET_BIT (data bit_pos : Nat) : Nat :=
  (data >>> bit_pos) &&& 0x1

/-- Conversion of an `int` to C `bool`: every non-zero value is `true`. -/
def toBool (v : Nat) : Bool :=
  v != 0

/-- Conversion of an `int` to `int16_t` (two's-complement wrap to 16 bits). -/
def toInt16 (v : Int) : Int :=
  (v + 32768) % 65536 - 32768

/-! ## Packet decoder -/

/-- Values written through the seven out-parameters of
`zmk_ps2_mouse_movement_parse_cmd_buffer`. -/
structure MotionEvent where
  mov_x : Int
  mov_y : Int
  overflow_x : Bool
  overflow_y : Bool
  button_l : Bool
  button_m : Bool
  button_r : Bool
  deriving DecidableEq, Repr

/-- Function `zmk_ps2_mouse_movement_parse_cmd_buffer` (lines 156-197).  The
byte operands are promoted to `int` before the shift, mask and subtraction;
the difference is then stored into an `int16_t`. -/
def zmk_ps2_mouse_movement_parse_cmd_buffer (cmd_state cmd_x cmd_y : Nat) : MotionEvent :=
  { button_l := toBool (PS2_GPIO_GET_BIT cmd_state 0)
    button_r := toBool (PS2_GPIO_GET_BIT cmd_state 1)
    button_m := toBool (PS2_GPIO_GET_BIT cmd_state 2)
    overflow_x := toBool (PS2_GPIO_GET_BIT cmd_state 6)
    overflow_y := toBool (PS2_GPIO_GET_BIT cmd_state 7)
    mov_x := toInt16 ((cmd_x : Int) - (((cmd_state <<< 4) &&& 0x100 : Nat) : Int))
    mov_y := toInt16 ((cmd_y : Int) - (((cmd_state <<< 3) &&& 0x100 : Nat) : Int)) }

/-- Function `zmk_ps2_mouse_movement_process_cmd` (lines 124-146): decodes the
frame and reports the decoded values (the `LOG_INF` record); the reported
record is the event the driver emits for the frame. -/
def zmk_ps2_mouse_movement_process_cmd (cmd_state cmd_x cmd_y : Nat) : MotionEvent :=
  zmk_ps2_mouse_movement_parse_cmd_buffer cmd_state cmd_x cmd_y

/-! ## Frame assembler -/

/-- The array `uint8_t cmd_buffer[3]`. -/
structure CmdBuffer where
  b0 : Nat
  b1 : Nat
  b2 : Nat
  deriving DecidableEq, Repr

/-- The store `cmd_buffer[idx] = byte`; `none` when `idx` is outside the array. -/
def CmdBuffer.set (buf : CmdBuffer) (idx : Int) (byte : Nat) : Option CmdBuffer :=
  if idx = 0 then some { buf with b0 := byte }
  else if idx = 1 then some { buf with b1 := byte }
  else if idx = 2 then some { buf with b2 := byte }
  else none

/-- The part of `struct zmk_ps2_mouse_data` used by the movement path.
`cmd_buffer_timeout` records whether the delayable work item is pending. -/
structure zmk_ps2_mouse_data where
  cmd_buffer : CmdBuffer
  cmd_idx : Int
  cmd_buffer_timeout : Bool
  deriving DecidableEq, Repr

/-- The static initialiser `zmk_ps2_mouse_data = { .cmd_idx = 0 }`: every
other member is zero-initialised. -/
def zmk_ps2_mouse_data.initial : zmk_ps2_mouse_data :=
  { cmd_buffer := ⟨0, 0, 0⟩, cmd_idx := 0, cmd_buffer_timeout := false }

/-- `PS2_MOUSE_TIMEOUT_CMD_BUFFER`, `K_MSEC(500)`, in milliseconds. -/
def PS2_MOUSE_TIMEOUT_CMD_BUFFER : Nat := 500

/-- `PS2_MOUSE_CMD_RESEND`. -/
def PS2_MOUSE_CMD_RESEND : Nat := 0xfe

/-- Calls made by the movement path, in program order. -/
inductive Effect where
  /-- The call `k_work_cancel_delayable(&data->cmd_buffer_timeout)`. -/
  | cancel_timeout
  /-- The call `k_work_schedule(&data->cmd_buffer_timeout, delay)`. -/
  | schedule_timeout (delay_ms : Nat)
  /-- The call `zmk_ps2_mouse_movement_process_cmd(cmd_state, cmd_x, cmd_y)`. -/
  | process_cmd (cmd_state cmd_x cmd_y : Nat)
  /-- The call `ps2_write(ps2_device, byte)`. -/
  | ps2_write (byte : Nat)
  deriving DecidableEq, Repr

/-- Function `zmk_ps2_mouse_movement_reset_cmd_buffer` (lines 148-154). -/
def zmk_ps2_mouse_movement_reset_cmd_buffer (data : zmk_ps2_mouse_data) : zmk_ps2_mouse_data :=
  { data with cmd_idx := 0, cmd_buffer := ⟨0, 0, 0⟩ }

/-- Function `zmk_ps2_mouse_movement_callback` (lines 69-111).

The timer is cancelled, the byte is stored at the cursor, and then the cursor
decides: at 0 a byte without the alignment bit returns early with the cursor
left at 0; at 2 the frame is processed and the buffer reset; otherwise the
cursor advances and the timeout is scheduled. -/
def zmk_ps2_mouse_movement_callback (data : zmk_ps2_mouse_data) (byte : Nat) :
    Option (zmk_ps2_mouse_data × List Effect) :=
  -- k_work_cancel_delayable(&data->cmd_buffer_timeout);
  let data := { data with cmd_buffer_timeout := false }
  -- data->cmd_buffer[data->cmd_idx] = byte;
  match data.cmd_buffer.set data.cmd_idx byte with
  | none => none
  | some buf =>
    let data := { data with cmd_buffer := buf }
    -- the tail shared by the branches that fall through
    let advance : Option (zmk_ps2_mouse_data × List Effect) :=
      some ({ data with cmd_idx := data.cmd_idx + 1, cmd_buffer_timeout := true },
            [Effect.cancel_timeout, Effect.schedule_timeout PS2_MOUSE_TIMEOUT_CMD_BUFFER])
    if data.cmd_idx = 0 then
      let alignment_bit := PS2_GPIO_GET_BIT byte 3
      if alignment_bit ≠ 1 then
        -- the resend request is commented out in the source
        some ({ data with cmd_idx := 0 }, [Effect.cancel_timeout])
      else advance
    else if data.cmd_idx = 1 then
      advance
    else if data.cmd_idx = 2 then
      some (zmk_ps2_mouse_movement_reset_cmd_buffer data,
            [Effect.cancel_timeout,
             Effect.process_cmd data.cmd_buffer.b0 data.cmd_buffer.b1 data.cmd_buffer.b2])
    else advance

/-- Function `zmk_ps2_mouse_movement_cmd_timout` (lines 113-121): the expiry
handler of the delayable work item. -/
def zmk_ps2_mouse_movement_cmd_timout (data : zmk_ps2_mouse_data) :
    zmk_ps2_mouse_data × List Effect :=
  (zmk_ps2_mouse_movement_reset_cmd_buffer data, [])

/-- The events emitted by a list of calls: one decoded frame per call of
`zmk_ps2_mouse_movement_process_cmd`, in order. -/
def emitted : List Effect → List MotionEvent
  | [] => []
  | Effect.process_cmd s x y :: rest =>
      zmk_ps2_mouse_movement_process_cmd s x y :: emitted rest
  | _ :: rest => emitted rest

/-- The arguments of the calls of `zmk_ps2_mouse_movement_process_cmd` in a
list of calls, in order. -/
def processCalls : List Effect → List (Nat × Nat × Nat)
  | [] => []
  | Effect.process_cmd s x y :: rest => (s, x, y) :: processCalls rest
  | _ :: rest => processCalls rest

/-! ## Input sequences -/

/-- What can reach the assembler: a byte from the PS/2 device (the registered
callback runs) or the expiry of the delayable work item (its handler runs). -/
inductive Input where
  | byte (b : Nat)
  | expiry
  deriving DecidableEq, Repr

/-- Delivery of one input.  A byte runs `zmk_ps2_mouse_movement_callback`; an
expiry runs `zmk_ps2_mouse_movement_cmd_timout`, the work item being no longer
pending once its handler runs. -/
def deliver (data : zmk_ps2_mouse_data) : Input → Option (zmk_ps2_mouse_data × List Effect)
  | Input.byte b => zmk_ps2_mouse_movement_callback data b
  | Input.expiry =>
      some (zmk_ps2_mouse_movement_cmd_timout { data with cmd_buffer_timeout := false })

/-- Delivery of a sequence of inputs, one after the other; the calls made are
collected in order. -/
def run (data : zmk_ps2_mouse_data) : List Input → Option (zmk_ps2_mouse_data × List Effect)
  | [] => some (data, [])
  | i :: rest =>
    match deliver data i with
    | none => none
    | some (d, e) =>
      match run d rest with
      | none => none
      | some (d2, e2) => some (d2, e ++ e2)

/-- What is observable of a run, input by input: the events emitted while the
input is handled and the cursor `cmd_idx` after it.  The list stops where an
input has no defined behaviour. -/
def observe (data : zmk_ps2_mouse_data) : List Input → List (List MotionEvent × Int)
  | [] => []
  | i :: rest =>
    match deliver data i with
    | none => []
    | some (d, e) => (emitted e, d.cmd_idx) :: observe d rest

/-- The byte stream of a list of frames: state, x and y byte of each frame, in
frame order. -/
def frameBytes : List (Nat × Nat × Nat) → List Nat
  | [] => []
  | (s, x, y) :: rest => s :: x :: y :: frameBytes rest

/-- Delivery of one input when the timer is taken into account: a byte can
always arrive, the work item can expire only while it is pending.  `none` for
an expiry that cannot happen. -/
def deliverTimed (data : zmk_ps2_mouse_data) :
    Input → Option (zmk_ps2_mouse_data × List Effect)
  | Input.byte b => deliver data (Input.byte b)
  | Input.expiry =>
      if data.cmd_buffer_timeout = true then deliver data Input.expiry else none

/-- Delivery of a sequence of inputs in which every expiry finds the work item
pending. -/
def runTimed (data : zmk_ps2_mouse_data) :
    List Input → Option (zmk_ps2_mouse_data × List Effect)
  | [] => some (data, [])
  | i :: rest =>
    match deliverTimed data i with
    | none => none
    | some (d, e) =>
      match runTimed d rest with
      | none => none
      | some (d2, e2) => some (d2, e ++ e2)

/-! ## Bring-up thread -/

/-- Calls made by the bring-up thread, in program order. -/
inductive InitCall where
  /-- The call `ps2_read(config->ps2_device, &read_val)`. -/
  | ps2_read
  /-- The call `ps2_write(ps2_device, byte)`. -/
  | ps2_write (byte : Nat)
  /-- The call `k_sleep(K_SECONDS(seconds))`. -/
  | k_sleep (seconds : Nat)
  /-- The call `ps2_config(config->ps2_device, &zmk_ps2_mouse_movement_callback)`. -/
  | ps2_config
  /-- The call `ps2_enable_callback(config->ps2_device)`. -/
  | ps2_enable_callback
  /-- The call `k_work_init_delayable(&data->cmd_buffer_timeout,
  zmk_ps2_mouse_movement_cmd_timout)`. -/
  | k_work_init_delayable
  deriving DecidableEq, Repr

/-- The PS/2 transport as the bring-up thread sees it: the return value (0 on
success) and the byte of the k-th call of `ps2_read`, the return value of the
k-th call of `ps2_write`, and the return values of `ps2_config` and
`ps2_enable_callback`.  Calls are counted from 0. -/
structure Ps2Device where
  read_err : Nat → Int
  read_val : Nat → Nat
  write_err : Nat → Int
  config_err : Int
  enable_callback_err : Int

/-- Progress of the bring-up thread: how many reads and writes were issued and
the calls made so far, oldest first. -/
structure InitState where
  reads : Nat
  writes : Nat
  calls : List InitCall
  deriving DecidableEq, Repr

/-- The bring-up thread before its first call. -/
def InitState.start : InitState :=
  { reads := 0, writes := 0, calls := [] }

/-- One call of `ps2_read`: the error code, the byte read, the new progress. -/
def ps2_read (dev : Ps2Device) (st : InitState) : Int × Nat × InitState :=
  (dev.read_err st.reads, dev.read_val st.reads,
   { st with reads := st.reads + 1, calls := st.calls ++ [InitCall.ps2_read] })

/-- One call of `ps2_write`: the error code and the new progress. -/
def ps2_write (dev : Ps2Device) (byte : Nat) (st : InitState) : Int × InitState :=
  (dev.write_err st.writes,
   { st with writes := st.writes + 1, calls := st.calls ++ [InitCall.ps2_write byte] })

/-- One call of `k_sleep(K_SECONDS(seconds))`. -/
def k_sleep (seconds : Nat) (st : InitState) : InitState :=
  { st with calls := st.calls ++ [InitCall.k_sleep seconds] }

/-- One call of `ps2_config` registering `zmk_ps2_mouse_movement_callback`. -/
def ps2_config (dev : Ps2Device) (st : InitState) : Int × InitState :=
  (dev.config_err, { st with calls := st.calls ++ [InitCall.ps2_config] })

/-- One call of `ps2_enable_callback`. -/
def ps2_enable_callback (dev : Ps2Device) (st : InitState) : Int × InitState :=
  (dev.enable_callback_err, { st with calls := st.calls ++ [InitCall.ps2_enable_callback] })

/-- One call of `k_work_init_delayable` for the timeout work item. -/
def k_work_init_delayable (st : InitState) : InitState :=
  { st with calls := st.calls ++ [InitCall.k_work_init_delayable] }

/-- Function `zmk_ps2_stream_mode_enable` (lines 204-238): one write of `0xea`;
the read of the acknowledgement is commented out in the source. -/
def zmk_ps2_stream_mode_enable (dev : Ps2Device) (st : InitState) : Int × InitState :=
  let cmd := 0xea
  let (err, st) := ps2_write dev cmd st
  if err ≠ 0 then (err, st) else (0, st)

/-- Function `zmk_ps2_stream_mode_enable_reporting` (lines 240-273): one write
of `0xf4`; the read of the acknowledgement is commented out in the source. -/
def zmk_ps2_stream_mode_enable_reporting (dev : Ps2Device) (st : InitState) :
    Int × InitState :=
  let (err, st) := ps2_write dev 0xf4 st
  if err ≠ 0 then (err, st) else (0, st)

/-- The `while(true)` loop of `zmk_ps2_mouse_init_thread` (lines 330-342): read
the self-test result; after a failed read sleep 5 seconds and read again; leave
the loop after the first successful read, whatever byte it delivered.  The
first argument bounds the number of iterations; `none` when it is used up. -/
def self_test_loop (dev : Ps2Device) : Nat → InitState → Option InitState
  | 0, _ => none
  | fuel + 1, st =>
    let (err, _read_val, st) := ps2_read dev st
    if err ≠ 0 then
      self_test_loop dev fuel (k_sleep 5 st)
    else
      some st

/-- Function `zmk_ps2_mouse_init_thread` (lines 319-396): the self-test loop,
the device-id read, the two commands with their settle times, the registration
of the callback, and, unless the registration failed, the enabling of the
callback and the initialisation of the timeout work item.  The results of the
device-id read, of the two commands and of `ps2_enable_callback` are only
logged. -/
def zmk_ps2_mouse_init_thread (dev : Ps2Device) (fuel : Nat) : Option InitState :=
  match self_test_loop dev fuel InitState.start with
  | none => none
  | some st =>
    -- Read device id
    let (_err, _read_val, st) := ps2_read dev st
    let (_, st) := zmk_ps2_stream_mode_enable dev st
    let st := k_sleep 1 st
    let (_, st) := zmk_ps2_stream_mode_enable_reporting dev st
    let st := k_sleep 2 st
    -- Enable read callback
    let (err, st) := ps2_config dev st
    if err ≠ 0 then
      some st
    else
      let (_err, st) := ps2_enable_callback dev st
      some (k_work_init_delayable st)

/-- The calls of `n` failed self-test reads: each read is followed by a sleep
of 5 seconds. -/
def selfTestRetries : Nat → List InitCall
  | 0 => []
  | n + 1 => InitCall.ps2_read :: InitCall.k_sleep 5 :: selfTestRetries n

/-- A transport whose `ps2_read` calls return the listed error codes in order
(0 once the list is used up) and deliver the byte `0xAA`, and whose other calls
return the given error codes. -/
def Ps2Device.scripted (read_errs : List Int) (write_err config_err enable_callback_err : Int) :
    Ps2Device :=
  { read_err := fun k => read_errs.getD k 0
    read_val := fun _ => 0xAA
    write_err := fun _ => write_err
    config_err := config_err
    enable_callback_err := enable_callback_err }

/-! ## Bit-level facts -/

theorem and_two_pow_eq_ite (a i : Nat) :
    a &&& 2 ^ i = if a.testBit i then 2 ^ i else 0 := by
  apply Nat.eq_of_testBit_eq
  intro j
  rw [Nat.testBit_and, Nat.testBit_two_pow]
  by_cases h : i = j
  · subst h
    cases hb : a.testBit i <;> simp [Nat.testBit_two_pow]
  · cases hb : a.testBit i <;> simp [Nat.testBit_two_pow, h]

theorem shiftLeft_four_and_0x100 (s : Nat) :
    (s <<< 4) &&& 0x100 = if s.testBit 4 then 256 else 0 := by
  have h := and_two_pow_eq_ite (s <<< 4) 8
  rw [Nat.testBit_shiftLeft] at h
  simpa using h

theorem shiftLeft_three_and_0x100 (s : Nat) :
    (s <<< 3) &&& 0x100 = if s.testBit 5 then 256 else 0 := by
  have h := and_two_pow_eq_ite (s <<< 3) 8
  rw [Nat.testBit_shiftLeft] at h
  simpa using h

theorem toBool_PS2_GPIO_GET_BIT (data bit_pos : Nat) :
    toBool (PS2_GPIO_GET_BIT data bit_pos) = data.testBit bit_pos := by
  simp [toBool, PS2_GPIO_GET_BIT, Nat.testBit, Nat.and_comm]

theorem toInt16_of_mem_range (v : Int) (hlo : -32768 ≤ v) (hhi : v ≤ 32767) :
    toInt16 v = v := by
  unfold toInt16
  omega

theorem parse_mov_x_eq (cmd_state cmd_x cmd_y : Nat) (hx : cmd_x < 256) :
    (zmk_ps2_mouse_movement_parse_cmd_buffer cmd_state cmd_x cmd_y).mov_x
      = (cmd_x : Int) - (if cmd_state.testBit 4 then 256 else 0) := by
  simp only [zmk_ps2_mouse_movement_parse_cmd_buffer, shiftLeft_four_and_0x100]
  cases cmd_state.testBit 4 <;> simp <;> apply toInt16_of_mem_range <;> omega

theorem parse_mov_y_eq (cmd_state cmd_x cmd_y : Nat) (hy : cmd_y < 256) :
    (zmk_ps2_mouse_movement_parse_cmd_buffer cmd_state cmd_x cmd_y).mov_y
      = (cmd_y : Int) - (if cmd_state.testBit 5 then 256 else 0) := by
  simp only [zmk_ps2_mouse_movement_parse_cmd_buffer, shiftLeft_three_and_0x100]
  cases cmd_state.testBit 5 <;> simp <;> apply toInt16_of_mem_range <;> omega

/-! ## The callback, cursor by cursor -/

theorem PS2_GPIO_GET_BIT_eq_one_iff (data bit_pos : Nat) :
    PS2_GPIO_GET_BIT data bit_pos = 1 ↔ data.testBit bit_pos = true := by
  rw [← toBool_PS2_GPIO_GET_BIT]
  have h : PS2_GPIO_GET_BIT data bit_pos < 2 := by
    unfold PS2_GPIO_GET_BIT
    rw [Nat.and_one_is_mod]
    omega
  unfold toBool
  constructor
  · intro h1
    simp [h1]
  · intro h1
    have h2 : PS2_GPIO_GET_BIT data bit_pos ≠ 0 := by simpa using h1
    omega

theorem callback_reject (data : zmk_ps2_mouse_data) (byte : Nat)
    (hidx : data.cmd_idx = 0) (hbit : byte.testBit 3 = false) :
    zmk_ps2_mouse_movement_callback data byte
      = some ({ cmd_buffer := { data.cmd_buffer with b0 := byte }, cmd_idx := 0,
                cmd_buffer_timeout := false }, [Effect.cancel_timeout]) := by
  have hne : ¬ PS2_GPIO_GET_BIT byte 3 = 1 := by
    rw [PS2_GPIO_GET_BIT_eq_one_iff, hbit]; simp
  simp [zmk_ps2_mouse_movement_callback, CmdBuffer.set, hidx, hne]

theorem callback_first (data : zmk_ps2_mouse_data) (byte : Nat)
    (hidx : data.cmd_idx = 0) (hbit : byte.testBit 3 = true) :
    zmk_ps2_mouse_movement_callback data byte
      = some ({ cmd_buffer := { data.cmd_buffer with b0 := byte }, cmd_idx := 1,
                cmd_buffer_timeout := true },
              [Effect.cancel_timeout, Effect.schedule_timeout PS2_MOUSE_TIMEOUT_CMD_BUFFER]) := by
  have he : PS2_GPIO_GET_BIT byte 3 = 1 := (PS2_GPIO_GET_BIT_eq_one_iff _ _).mpr hbit
  simp [zmk_ps2_mouse_movement_callback, CmdBuffer.set, hidx, he]

theorem callback_second (data : zmk_ps2_mouse_data) (byte : Nat)
    (hidx : data.cmd_idx = 1) :
    zmk_ps2_mouse_movement_callback data byte
      = some ({ cmd_buffer := { data.cmd_buffer with b1 := byte }, cmd_idx := 2,
                cmd_buffer_timeout := true },
              [Effect.cancel_timeout, Effect.schedule_timeout PS2_MOUSE_TIMEOUT_CMD_BUFFER]) := by
  simp [zmk_ps2_mouse_movement_callback, CmdBuffer.set, hidx]

theorem callback_third (data : zmk_ps2_mouse_data) (byte : Nat)
    (hidx : data.cmd_idx = 2) :
    zmk_ps2_mouse_movement_callback data byte
      = some ({ cmd_buffer := ⟨0, 0, 0⟩, cmd_idx := 0, cmd_buffer_timeout := false },
              [Effect.cancel_timeout,
               Effect.process_cmd data.cmd_buffer.b0 data.cmd_buffer.b1 byte]) := by
  simp [zmk_ps2_mouse_movement_callback, CmdBuffer.set, hidx,
    zmk_ps2_mouse_movement_reset_cmd_buffer]

theorem callback_out_of_bounds (data : zmk_ps2_mouse_data) (byte : Nat)
    (h0 : data.cmd_idx ≠ 0) (h1 : data.cmd_idx ≠ 1) (h2 : data.cmd_idx ≠ 2) :
    zmk_ps2_mouse_movement_callback data byte = none := by
  simp [zmk_ps2_mouse_movement_callback, CmdBuffer.set, h0, h1, h2]

/-! ## Runs -/

/-- The state after a completed frame or an expiry. -/
def cleared : zmk_ps2_mouse_data :=
  { cmd_buffer := ⟨0, 0, 0⟩, cmd_idx := 0, cmd_buffer_timeout := false }

/-- The calls made while one well-aligned frame is assembled. -/
def frameCalls (s x y : Nat) : List Effect :=
  [Effect.cancel_timeout, Effect.schedule_timeout PS2_MOUSE_TIMEOUT_CMD_BUFFER,
   Effect.cancel_timeout, Effect.schedule_timeout PS2_MOUSE_TIMEOUT_CMD_BUFFER,
   Effect.cancel_timeout, Effect.process_cmd s x y]

theorem emitted_append (e1 e2 : List Effect) :
    emitted (e1 ++ e2) = emitted e1 ++ emitted e2 := by
  induction e1 with
  | nil => rfl
  | cons c rest ih => cases c <;> simp [emitted, ih]

theorem processCalls_append (e1 e2 : List Effect) :
    processCalls (e1 ++ e2) = processCalls e1 ++ processCalls e2 := by
  induction e1 with
  | nil => rfl
  | cons c rest ih => cases c <;> simp [processCalls, ih]

theorem run_frame_cons (data : zmk_ps2_mouse_data) (s x y : Nat) (rest : List Input)
    (hidx : data.cmd_idx = 0) (hbit : s.testBit 3 = true) :
    run data (Input.byte s :: Input.byte x :: Input.byte y :: rest)
      = match run cleared rest with
        | none => none
        | some (d2, e2) => some (d2, frameCalls s x y ++ e2) := by
  simp only [run, deliver, cleared]
  rw [callback_first data s hidx hbit]
  simp only
  rw [callback_second _ x rfl]
  simp only
  rw [callback_third _ y rfl]
  simp only
  cases run { cmd_buffer := ⟨0, 0, 0⟩, cmd_idx := 0, cmd_buffer_timeout := false } rest with
  | none => rfl
  | some p => simp [frameCalls]

theorem run_frames (frames : List (Nat × Nat × Nat))
    (hbit : ∀ f ∈ frames, f.1.testBit 3 = true) (data : zmk_ps2_mouse_data)
    (hidx : data.cmd_idx = 0) (hbuf : data.cmd_buffer = ⟨0, 0, 0⟩) :
    ∃ d e, run data ((frameBytes frames).map Input.byte) = some (d, e) ∧
      processCalls e = frames ∧
      emitted e = frames.map
        (fun f => zmk_ps2_mouse_movement_parse_cmd_buffer f.1 f.2.1 f.2.2) ∧
      d.cmd_idx = 0 ∧ d.cmd_buffer = ⟨0, 0, 0⟩ := by
  induction frames generalizing data with
  | nil => exact ⟨data, [], rfl, rfl, rfl, hidx, hbuf⟩
  | cons f rest ih =>
    obtain ⟨s, x, y⟩ := f
    have hs : s.testBit 3 = true := hbit (s, x, y) (List.mem_cons_self _ _)
    have hrest : ∀ g ∈ rest, g.1.testBit 3 = true :=
      fun g hg => hbit g (List.mem_cons_of_mem _ hg)
    obtain ⟨d, e, hrun, hcalls, hev, hd, hb⟩ := ih hrest cleared rfl rfl
    refine ⟨d, frameCalls s x y ++ e, ?_, ?_, ?_, hd, hb⟩
    · simp only [frameBytes, List.map_cons]
      rw [run_frame_cons data s x y _ hidx hs, hrun]
    · rw [processCalls_append, hcalls]
      rfl
    · rw [emitted_append, hev]
      rfl

theorem run_rejected (junk : List Nat) (hbit : ∀ b ∈ junk, b.testBit 3 = false)
    (data : zmk_ps2_mouse_data) (hidx : data.cmd_idx = 0) :
    ∃ d e, run data (junk.map Input.byte) = some (d, e) ∧
      d.cmd_idx = 0 ∧ emitted e = [] ∧ processCalls e = [] := by
  induction junk generalizing data with
  | nil => exact ⟨data, [], rfl, hidx, rfl, rfl⟩
  | cons b rest ih =>
    have hb : b.testBit 3 = false := hbit b (List.mem_cons_self _ _)
    have hrest : ∀ c ∈ rest, c.testBit 3 = false :=
      fun c hc => hbit c (List.mem_cons_of_mem _ hc)
    obtain ⟨d, e, hrun, hd, hev, hcalls⟩ :=
      ih hrest { cmd_buffer := { data.cmd_buffer with b0 := b }, cmd_idx := 0,
                 cmd_buffer_timeout := false } rfl
    refine ⟨d, [Effect.cancel_timeout] ++ e, ?_, hd, ?_, ?_⟩
    · simp only [List.map_cons, run, deliver]
      rw [callback_reject data b hidx hb]
      simp only
      rw [hrun]
    · rw [emitted_append, hev]
      rfl
    · rw [processCalls_append, hcalls]
      rfl

theorem run_append (data : zmk_ps2_mouse_data) (l1 l2 : List Input) :
    run data (l1 ++ l2)
      = match run data l1 with
        | none => none
        | some (d, e) =>
          match run d l2 with
          | none => none
          | some (d2, e2) => some (d2, e ++ e2) := by
  induction l1 generalizing data with
  | nil =>
    simp only [List.nil_append, run]
    cases run data l2 with
    | none => rfl
    | some p => simp
  | cons i rest ih =>
    rw [List.cons_append, run, run]
    cases deliver data i with
    | none => rfl
    | some p =>
      obtain ⟨d, e⟩ := p
      simp only
      rw [ih d]
      cases run d rest with
      | none => rfl
      | some q =>
        obtain ⟨d1, e1⟩ := q
        simp only
        cases run d1 l2 with
        | none => rfl
        | some r => simp [List.append_assoc]

/-! ## States that cannot be told apart -/

/-- Two states agree on the cursor, on `cmd_buffer[1]` and `cmd_buffer[2]`, and,
unless the cursor is 0, on `cmd_buffer[0]`; the timeout flag is not compared. -/
def sameFrame (s t : zmk_ps2_mouse_data) : Prop :=
  s.cmd_idx = t.cmd_idx ∧
  s.cmd_buffer.b1 = t.cmd_buffer.b1 ∧
  s.cmd_buffer.b2 = t.cmd_buffer.b2 ∧
  (s.cmd_idx ≠ 0 → s.cmd_buffer.b0 = t.cmd_buffer.b0)

theorem sameFrame_refl (s : zmk_ps2_mouse_data) : sameFrame s s :=
  ⟨rfl, rfl, rfl, fun _ => rfl⟩

theorem deliver_sameFrame (s t : zmk_ps2_mouse_data) (i : Input) (h : sameFrame s t) :
    (deliver s i = none ∧ deliver t i = none) ∨
    ∃ s2 t2 e, deliver s i = some (s2, e) ∧ deliver t i = some (t2, e) ∧ sameFrame s2 t2 := by
  obtain ⟨hidx, hb1, hb2, hb0⟩ := h
  cases i with
  | expiry =>
    exact Or.inr ⟨_, _, _, rfl, rfl, rfl, rfl, rfl, fun _ => rfl⟩
  | byte b =>
    simp only [deliver]
    by_cases h0 : s.cmd_idx = 0
    · have h0t : t.cmd_idx = 0 := hidx ▸ h0
      cases hbit : b.testBit 3 with
      | false =>
        rw [callback_reject s b h0 hbit, callback_reject t b h0t hbit]
        exact Or.inr ⟨_, _, _, rfl, rfl, rfl, hb1, hb2, fun hne => absurd rfl hne⟩
      | true =>
        rw [callback_first s b h0 hbit, callback_first t b h0t hbit]
        exact Or.inr ⟨_, _, _, rfl, rfl, rfl, hb1, hb2, fun _ => rfl⟩
    · by_cases h1 : s.cmd_idx = 1
      · have h1t : t.cmd_idx = 1 := hidx ▸ h1
        rw [callback_second s b h1, callback_second t b h1t]
        exact Or.inr ⟨_, _, _, rfl, rfl, rfl, rfl, hb2, fun _ => hb0 h0⟩
      · by_cases h2 : s.cmd_idx = 2
        · have h2t : t.cmd_idx = 2 := hidx ▸ h2
          rw [callback_third s b h2, callback_third t b h2t, hb0 h0, hb1]
          exact Or.inr ⟨_, _, _, rfl, rfl, sameFrame_refl _⟩
        · rw [callback_out_of_bounds s b h0 h1 h2,
            callback_out_of_bounds t b (hidx ▸ h0) (hidx ▸ h1) (hidx ▸ h2)]
          exact Or.inl ⟨rfl, rfl⟩

theorem observe_sameFrame (inputs : List Input) (s t : zmk_ps2_mouse_data)
    (h : sameFrame s t) : observe s inputs = observe t inputs := by
  induction inputs generalizing s t with
  | nil => rfl
  | cons i rest ih =>
    rcases deliver_sameFrame s t i h with ⟨hs, ht⟩ | ⟨s2, t2, e, hs, ht, h2⟩
    · simp only [observe, hs, ht]
    · simp only [observe, hs, ht]
      rw [ih s2 t2 h2, h2.1]

/-- The cursor addresses a slot of the three-byte buffer. -/
def cursorInRange (data : zmk_ps2_mouse_data) : Prop :=
  data.cmd_idx = 0 ∨ data.cmd_idx = 1 ∨ data.cmd_idx = 2

theorem deliver_cursorInRange (data : zmk_ps2_mouse_data) (i : Input)
    (h : cursorInRange data) :
    ∃ d e, deliver data i = some (d, e) ∧ cursorInRange d := by
  cases i with
  | expiry => exact ⟨_, _, rfl, Or.inl rfl⟩
  | byte b =>
    simp only [deliver]
    rcases h with h0 | h1 | h2
    · cases hbit : b.testBit 3 with
      | false => exact ⟨_, _, callback_reject data b h0 hbit, Or.inl rfl⟩
      | true => exact ⟨_, _, callback_first data b h0 hbit, Or.inr (Or.inl rfl)⟩
    · exact ⟨_, _, callback_second data b h1, Or.inr (Or.inr rfl)⟩
    · exact ⟨_, _, callback_third data b h2, Or.inl rfl⟩

theorem observe_length (inputs : List Input) (data : zmk_ps2_mouse_data)
    (h : cursorInRange data) : (observe data inputs).length = inputs.length := by
  induction inputs generalizing data with
  | nil => rfl
  | cons i rest ih =>
    obtain ⟨d, e, hd, hr⟩ := deliver_cursorInRange data i h
    simp only [observe, hd, List.length_cons, ih d hr]

/-! ## Packet decoder: claims C1 - C3 -/

/-- C1: for bytes `cmd_x`, `cmd_y` (and any state byte) the decoder sets
`mov_x = cmd_x - (256 if bit 4 of the state is set, else 0)` and
`mov_y = cmd_y - (256 if bit 5 is set, else 0)` as exact integers, so the store
into the 16-bit result does not wrap; both lie in `-256 .. 255`; and the frame
`0x18, 0xFD, 0x02` decodes to `mov_x = -3`, `mov_y = 2`. -/
theorem parse_cmd_buffer_movement (cmd_state cmd_x cmd_y : Nat)
    (hx : cmd_x < 256) (hy : cmd_y < 256) :
    (zmk_ps2_mouse_movement_parse_cmd_buffer cmd_state cmd_x cmd_y).mov_x
        = (cmd_x : Int) - (if cmd_state.testBit 4 then 256 else 0) ∧
    (zmk_ps2_mouse_movement_parse_cmd_buffer cmd_state cmd_x cmd_y).mov_y
        = (cmd_y : Int) - (if cmd_state.testBit 5 then 256 else 0) ∧
    -256 ≤ (zmk_ps2_mouse_movement_parse_cmd_buffer cmd_state cmd_x cmd_y).mov_x ∧
    (zmk_ps2_mouse_movement_parse_cmd_buffer cmd_state cmd_x cmd_y).mov_x ≤ 255 ∧
    -256 ≤ (zmk_ps2_mouse_movement_parse_cmd_buffer cmd_state cmd_x cmd_y).mov_y ∧
    (zmk_ps2_mouse_movement_parse_cmd_buffer cmd_state cmd_x cmd_y).mov_y ≤ 255 ∧
    (zmk_ps2_mouse_movement_parse_cmd_buffer 0x18 0xFD 0x02).mov_x = -3 ∧
    (zmk_ps2_mouse_movement_parse_cmd_buffer 0x18 0xFD 0x02).mov_y = 2 := by
  have ex := parse_mov_x_eq cmd_state cmd_x cmd_y hx
  have ey := parse_mov_y_eq cmd_state cmd_x cmd_y hy
  refine ⟨ex, ey, ?_, ?_, ?_, ?_, by decide, by decide⟩
  · rw [ex]; split <;> omega
  · rw [ex]; split <;> omega
  · rw [ey]; split <;> omega
  · rw [ey]; split <;> omega

/-- Witness for C1 at the frame `0x18, 0xFD, 0x02` of the source comment. -/
theorem parse_cmd_buffer_movement_witness :
    (0xFD < 256 ∧ 0x02 < 256) ∧
    (zmk_ps2_mouse_movement_parse_cmd_buffer 0x18 0xFD 0x02).mov_x = -3 ∧
    (zmk_ps2_mouse_movement_parse_cmd_buffer 0x18 0xFD 0x02).mov_y = 2 :=
  ⟨⟨by decide, by decide⟩,
   (parse_cmd_buffer_movement 0x18 0xFD 0x02 (by decide) (by decide)).2.2.2.2.2.2⟩

/-- C2: the five flags are bits 0, 1, 2, 6 and 7 of the state byte
(`button_l`, `button_r`, `button_m`, `overflow_x`, `overflow_y`), whatever the
coordinate bytes; hence a second frame whose state byte agrees on those five
bits (it may differ in bits 3, 4, 5 and in both coordinate bytes) decodes to
the same five flags. -/
theorem parse_cmd_buffer_flags (cmd_state cmd_x cmd_y cmd_state2 cmd_x2 cmd_y2 : Nat)
    (h0 : cmd_state2.testBit 0 = cmd_state.testBit 0)
    (h1 : cmd_state2.testBit 1 = cmd_state.testBit 1)
    (h2 : cmd_state2.testBit 2 = cmd_state.testBit 2)
    (h6 : cmd_state2.testBit 6 = cmd_state.testBit 6)
    (h7 : cmd_state2.testBit 7 = cmd_state.testBit 7) :
    ((zmk_ps2_mouse_movement_parse_cmd_buffer cmd_state cmd_x cmd_y).button_l
        = cmd_state.testBit 0 ∧
     (zmk_ps2_mouse_movement_parse_cmd_buffer cmd_state cmd_x cmd_y).button_r
        = cmd_state.testBit 1 ∧
     (zmk_ps2_mouse_movement_parse_cmd_buffer cmd_state cmd_x cmd_y).button_m
        = cmd_state.testBit 2 ∧
     (zmk_ps2_mouse_movement_parse_cmd_buffer cmd_state cmd_x cmd_y).overflow_x
        = cmd_state.testBit 6 ∧
     (zmk_ps2_mouse_movement_parse_cmd_buffer cmd_state cmd_x cmd_y).overflow_y
        = cmd_state.testBit 7) ∧
    ((zmk_ps2_mouse_movement_parse_cmd_buffer cmd_state2 cmd_x2 cmd_y2).button_l
        = (zmk_ps2_mouse_movement_parse_cmd_buffer cmd_state cmd_x cmd_y).button_l ∧
     (zmk_ps2_mouse_movement_parse_cmd_buffer cmd_state2 cmd_x2 cmd_y2).button_r
        = (zmk_ps2_mouse_movement_parse_cmd_buffer cmd_state cmd_x cmd_y).button_r ∧
     (zmk_ps2_mouse_movement_parse_cmd_buffer cmd_state2 cmd_x2 cmd_y2).button_m
        = (zmk_ps2_mouse_movement_parse_cmd_buffer cmd_state cmd_x cmd_y).button_m ∧
     (zmk_ps2_mouse_movement_parse_cmd_buffer cmd_state2 cmd_x2 cmd_y2).overflow_x
        = (zmk_ps2_mouse_movement_parse_cmd_buffer cmd_state cmd_x cmd_y).overflow_x ∧
     (zmk_ps2_mouse_movement_parse_cmd_buffer cmd_state2 cmd_x2 cmd_y2).overflow_y
        = (zmk_ps2_mouse_movement_parse_cmd_buffer cmd_state cmd_x cmd_y).overflow_y) := by
  simp only [zmk_ps2_mouse_movement_parse_cmd_buffer, toBool_PS2_GPIO_GET_BIT]
  exact ⟨⟨trivial, trivial, trivial, trivial, trivial⟩, h0, h1, h2, h6, h7⟩

/-- Witness for C2: the state bytes `0x47` and `0x7F` agree on bits 0, 1, 2, 6, 7
and differ in bits 3, 4, 5; the coordinate bytes differ as well. -/
theorem parse_cmd_buffer_flags_witness :
    (zmk_ps2_mouse_movement_parse_cmd_buffer 0x47 0x10 0x20).overflow_y = Nat.testBit 0x47 7 ∧
    (zmk_ps2_mouse_movement_parse_cmd_buffer 0x7F 0xFF 0x01).button_m
      = (zmk_ps2_mouse_movement_parse_cmd_buffer 0x47 0x10 0x20).button_m :=
  have h := parse_cmd_buffer_flags 0x47 0x10 0x20 0x7F 0xFF 0x01
    (by decide) (by decide) (by decide) (by decide) (by decide)
  ⟨h.1.2.2.2.2, h.2.2.2.1⟩

/-- C3: round trip.  For `dx`, `dy` in `-256 .. 255`, a state byte whose bit 4
is set exactly when `dx < 0` and whose bit 5 is set exactly when `dy < 0`, and
the low bytes `dx mod 256`, `dy mod 256` as coordinate bytes, the decoder
returns `mov_x = dx` and `mov_y = dy`. -/
theorem parse_cmd_buffer_round_trip (dx dy : Int) (cmd_state : Nat)
    (hdx : -256 ≤ dx ∧ dx ≤ 255) (hdy : -256 ≤ dy ∧ dy ≤ 255)
    (hsx : cmd_state.testBit 4 = true ↔ dx < 0)
    (hsy : cmd_state.testBit 5 = true ↔ dy < 0) :
    (zmk_ps2_mouse_movement_parse_cmd_buffer cmd_state
        (dx % 256).toNat (dy % 256).toNat).mov_x = dx ∧
    (zmk_ps2_mouse_movement_parse_cmd_buffer cmd_state
        (dx % 256).toNat (dy % 256).toNat).mov_y = dy := by
  have hxn : (0 : Int) ≤ dx % 256 := Int.emod_nonneg _ (by decide)
  have hyn : (0 : Int) ≤ dy % 256 := Int.emod_nonneg _ (by decide)
  have hxl : (dx % 256).toNat < 256 := by omega
  have hyl : (dy % 256).toNat < 256 := by omega
  rw [parse_mov_x_eq _ _ _ hxl, parse_mov_y_eq _ _ _ hyl,
    Int.toNat_of_nonneg hxn, Int.toNat_of_nonneg hyn]
  constructor
  · by_cases h : dx < 0
    · rw [if_pos (hsx.mpr h)]; omega
    · rw [if_neg (fun hb => h (hsx.mp hb))]; omega
  · by_cases h : dy < 0
    · rw [if_pos (hsy.mpr h)]; omega
    · rw [if_neg (fun hb => h (hsy.mp hb))]; omega

/-- Witness for C3 at `dx = -3`, `dy = 2` with the state byte `0x18`. -/
theorem parse_cmd_buffer_round_trip_witness :
    (Nat.testBit 0x18 4 = true ↔ (-3 : Int) < 0) ∧
    (Nat.testBit 0x18 5 = true ↔ (2 : Int) < 0) ∧
    (zmk_ps2_mouse_movement_parse_cmd_buffer 0x18
        ((-3 : Int) % 256).toNat ((2 : Int) % 256).toNat).mov_x = -3 ∧
    (zmk_ps2_mouse_movement_parse_cmd_buffer 0x18
        ((-3 : Int) % 256).toNat ((2 : Int) % 256).toNat).mov_y = 2 :=
  have hsx : Nat.testBit 0x18 4 = true ↔ (-3 : Int) < 0 := by decide
  have hsy : Nat.testBit 0x18 5 = true ↔ (2 : Int) < 0 := by decide
  ⟨hsx, hsy, parse_cmd_buffer_round_trip (-3) 2 0x18 (by decide) (by decide) hsx hsy⟩

/-! ## Frame assembler, one input: claims C4, C6, C7, C8 -/

/-- C4, counterexample: with the cursor at 0 and an all-zero buffer, the byte
`0x01` (bit 3 clear) is rejected with the cursor left at 0, yet `cmd_buffer[0]`
holds `0x01` afterwards: the store at line 78 precedes the alignment check. -/
theorem callback_reject_overwrites_first_slot :
    zmk_ps2_mouse_data.initial.cmd_idx = 0 ∧ Nat.testBit 0x01 3 = false ∧
    zmk_ps2_mouse_movement_callback zmk_ps2_mouse_data.initial 0x01
      = some ({ cmd_buffer := ⟨0x01, 0, 0⟩, cmd_idx := 0, cmd_buffer_timeout := false },
              [Effect.cancel_timeout]) ∧
    (⟨0x01, 0, 0⟩ : CmdBuffer) ≠ zmk_ps2_mouse_data.initial.cmd_buffer := by
  decide

/-- C4, amended: with the cursor at 0, a byte whose bit 3 is clear leaves the
cursor at 0 and leaves `cmd_buffer[1]` and `cmd_buffer[2]` as they were;
`cmd_buffer[0]` holds the rejected byte. -/
theorem callback_reject_frame (data : zmk_ps2_mouse_data) (byte : Nat)
    (hidx : data.cmd_idx = 0) (hbit : byte.testBit 3 = false) :
    ∃ d e, zmk_ps2_mouse_movement_callback data byte = some (d, e) ∧
      d.cmd_idx = 0 ∧
      d.cmd_buffer.b0 = byte ∧
      d.cmd_buffer.b1 = data.cmd_buffer.b1 ∧
      d.cmd_buffer.b2 = data.cmd_buffer.b2 :=
  ⟨_, _, callback_reject data byte hidx hbit, rfl, rfl, rfl, rfl⟩

/-- Witness for the amended C4: cursor 0, buffer `[0x09, 0x22, 0x33]`, byte `0x01`. -/
theorem callback_reject_frame_witness :
    ∃ d e, zmk_ps2_mouse_movement_callback
        { cmd_buffer := ⟨0x09, 0x22, 0x33⟩, cmd_idx := 0, cmd_buffer_timeout := true } 0x01
          = some (d, e) ∧
      d.cmd_idx = 0 ∧ d.cmd_buffer.b0 = 0x01 ∧ d.cmd_buffer.b1 = 0x22 ∧
      d.cmd_buffer.b2 = 0x33 :=
  callback_reject_frame
    { cmd_buffer := ⟨0x09, 0x22, 0x33⟩, cmd_idx := 0, cmd_buffer_timeout := true } 0x01
    rfl (by decide)

/-- C6: with the cursor at 2, any byte completes the frame: the callback makes
exactly one call of `zmk_ps2_mouse_movement_process_cmd`, on
`(cmd_buffer[0], cmd_buffer[1], byte)`, so exactly one event is emitted, the
decode of that frame; the cursor is then 0, the three buffer bytes are zero,
the timeout is cancelled and no timeout is scheduled. -/
theorem callback_completes_frame (data : zmk_ps2_mouse_data) (byte : Nat)
    (hidx : data.cmd_idx = 2) :
    ∃ d e, zmk_ps2_mouse_movement_callback data byte = some (d, e) ∧
      emitted e = [zmk_ps2_mouse_movement_parse_cmd_buffer
                     data.cmd_buffer.b0 data.cmd_buffer.b1 byte] ∧
      processCalls e = [(data.cmd_buffer.b0, data.cmd_buffer.b1, byte)] ∧
      d.cmd_idx = 0 ∧
      d.cmd_buffer = ⟨0, 0, 0⟩ ∧
      d.cmd_buffer_timeout = false ∧
      Effect.cancel_timeout ∈ e ∧
      ∀ delay_ms, Effect.schedule_timeout delay_ms ∉ e := by
  refine ⟨_, _, callback_third data byte hidx, rfl, rfl, rfl, rfl, rfl, ?_, ?_⟩
  · simp
  · intro delay_ms
    simp

/-- Witness for C6: cursor 2, buffer `[0x18, 0xFD, 0]`, timeout pending, byte `0x02`. -/
theorem callback_completes_frame_witness :
    ∃ d e, zmk_ps2_mouse_movement_callback
        { cmd_buffer := ⟨0x18, 0xFD, 0⟩, cmd_idx := 2, cmd_buffer_timeout := true } 0x02
          = some (d, e) ∧
      emitted e = [zmk_ps2_mouse_movement_parse_cmd_buffer 0x18 0xFD 0x02] ∧
      processCalls e = [(0x18, 0xFD, 0x02)] ∧
      d.cmd_idx = 0 ∧
      d.cmd_buffer = ⟨0, 0, 0⟩ ∧
      d.cmd_buffer_timeout = false ∧
      Effect.cancel_timeout ∈ e ∧
      ∀ delay_ms, Effect.schedule_timeout delay_ms ∉ e :=
  callback_completes_frame
    { cmd_buffer := ⟨0x18, 0xFD, 0⟩, cmd_idx := 2, cmd_buffer_timeout := true } 0x02 rfl

/-- C7: with the cursor at 0 a byte whose bit 3 is set is stored in
`cmd_buffer[0]` and the cursor becomes 1; with the cursor at 1 any byte is
stored in `cmd_buffer[1]` and the cursor becomes 2.  In both cases the other
two buffer bytes are unchanged and no event is emitted. -/
theorem callback_accepts_byte (data : zmk_ps2_mouse_data) (byte : Nat) :
    (data.cmd_idx = 0 → byte.testBit 3 = true →
      ∃ d e, zmk_ps2_mouse_movement_callback data byte = some (d, e) ∧
        d.cmd_idx = 1 ∧
        d.cmd_buffer.b0 = byte ∧
        d.cmd_buffer.b1 = data.cmd_buffer.b1 ∧
        d.cmd_buffer.b2 = data.cmd_buffer.b2 ∧
        emitted e = [] ∧ processCalls e = []) ∧
    (data.cmd_idx = 1 →
      ∃ d e, zmk_ps2_mouse_movement_callback data byte = some (d, e) ∧
        d.cmd_idx = 2 ∧
        d.cmd_buffer.b0 = data.cmd_buffer.b0 ∧
        d.cmd_buffer.b1 = byte ∧
        d.cmd_buffer.b2 = data.cmd_buffer.b2 ∧
        emitted e = [] ∧ processCalls e = []) :=
  ⟨fun hidx hbit => ⟨_, _, callback_first data byte hidx hbit, rfl, rfl, rfl, rfl, rfl, rfl⟩,
   fun hidx => ⟨_, _, callback_second data byte hidx, rfl, rfl, rfl, rfl, rfl, rfl⟩⟩

/-- Witness for C7: byte `0x08` at cursor 0 over the buffer `[0x11, 0x22, 0x33]`
and byte `0xFD` at cursor 1 over the buffer `[0x18, 0x22, 0x33]`. -/
theorem callback_accepts_byte_witness :
    (∃ d e, zmk_ps2_mouse_movement_callback
        { cmd_buffer := ⟨0x11, 0x22, 0x33⟩, cmd_idx := 0, cmd_buffer_timeout := false } 0x08
          = some (d, e) ∧
        d.cmd_idx = 1 ∧ d.cmd_buffer.b0 = 0x08 ∧ d.cmd_buffer.b1 = 0x22 ∧
        d.cmd_buffer.b2 = 0x33 ∧ emitted e = [] ∧ processCalls e = []) ∧
    (∃ d e, zmk_ps2_mouse_movement_callback
        { cmd_buffer := ⟨0x18, 0x22, 0x33⟩, cmd_idx := 1, cmd_buffer_timeout := true } 0xFD
          = some (d, e) ∧
        d.cmd_idx = 2 ∧ d.cmd_buffer.b0 = 0x18 ∧ d.cmd_buffer.b1 = 0xFD ∧
        d.cmd_buffer.b2 = 0x33 ∧ emitted e = [] ∧ processCalls e = []) :=
  ⟨(callback_accepts_byte
      { cmd_buffer := ⟨0x11, 0x22, 0x33⟩, cmd_idx := 0, cmd_buffer_timeout := false } 0x08).1
      rfl (by decide),
   (callback_accepts_byte
      { cmd_buffer := ⟨0x18, 0x22, 0x33⟩, cmd_idx := 1, cmd_buffer_timeout := true } 0xFD).2
      rfl⟩

/-- C8: timeout recovery.  From every state the expiry handler leaves the
cursor at 0 and the three buffer bytes zero, and makes no call, so no event is
emitted; a following byte whose bit 3 is set is accepted, giving cursor 1 and
buffer `[byte, 0, 0]`. -/
theorem cmd_timout_recovers (data : zmk_ps2_mouse_data) (byte : Nat)
    (hbit : byte.testBit 3 = true) :
    (zmk_ps2_mouse_movement_cmd_timout data).1.cmd_idx = 0 ∧
    (zmk_ps2_mouse_movement_cmd_timout data).1.cmd_buffer = ⟨0, 0, 0⟩ ∧
    (zmk_ps2_mouse_movement_cmd_timout data).2 = [] ∧
    emitted (zmk_ps2_mouse_movement_cmd_timout data).2 = [] ∧
    ∃ d e, zmk_ps2_mouse_movement_callback (zmk_ps2_mouse_movement_cmd_timout data).1 byte
        = some (d, e) ∧
      d.cmd_idx = 1 ∧ d.cmd_buffer = ⟨byte, 0, 0⟩ :=
  ⟨rfl, rfl, rfl, rfl, _, _,
   callback_first (zmk_ps2_mouse_movement_cmd_timout data).1 byte rfl hbit, rfl, rfl⟩

/-- Witness for C8: the first byte `0x18` is stored (cursor 1, timeout pending),
the timeout expires, then the byte `0x28` arrives. -/
theorem cmd_timout_recovers_witness :
    (zmk_ps2_mouse_movement_cmd_timout
        { cmd_buffer := ⟨0x18, 0, 0⟩, cmd_idx := 1, cmd_buffer_timeout := true }).1.cmd_idx = 0 ∧
    ∃ d e, zmk_ps2_mouse_movement_callback
        (zmk_ps2_mouse_movement_cmd_timout
          { cmd_buffer := ⟨0x18, 0, 0⟩, cmd_idx := 1, cmd_buffer_timeout := true }).1 0x28
          = some (d, e) ∧
      d.cmd_idx = 1 ∧ d.cmd_buffer = ⟨0x28, 0, 0⟩ :=
  have h := cmd_timout_recovers
    { cmd_buffer := ⟨0x18, 0, 0⟩, cmd_idx := 1, cmd_buffer_timeout := true } 0x28 (by decide)
  ⟨h.1, h.2.2.2.2⟩

/-! ## Frame assembler, byte streams: claims C5, C9, C10 -/

/-- C5: from the initial state, the byte stream of any list of frames whose
state bytes all have bit 3 set, delivered byte by byte with no expiry, makes
exactly the calls `zmk_ps2_mouse_movement_process_cmd(s_i, x_i, y_i)`, one per
frame and in frame order; the emitted events are the decodes of the frames in
order; the run ends with the cursor at 0 and an all-zero buffer. -/
theorem callback_assembles_frames (frames : List (Nat × Nat × Nat))
    (hbit : ∀ f ∈ frames, f.1.testBit 3 = true) :
    ∃ d e, run zmk_ps2_mouse_data.initial ((frameBytes frames).map Input.byte) = some (d, e) ∧
      processCalls e = frames ∧
      emitted e = frames.map
        (fun f => zmk_ps2_mouse_movement_parse_cmd_buffer f.1 f.2.1 f.2.2) ∧
      d.cmd_idx = 0 ∧ d.cmd_buffer = ⟨0, 0, 0⟩ :=
  run_frames frames hbit zmk_ps2_mouse_data.initial rfl rfl

/-- Witness for C5: the two frames `0x18 0xFD 0x02` and `0x09 0x01 0x01`. -/
theorem callback_assembles_frames_witness :
    ∃ d e, run zmk_ps2_mouse_data.initial
        ((frameBytes [(0x18, 0xFD, 0x02), (0x09, 0x01, 0x01)]).map Input.byte) = some (d, e) ∧
      processCalls e = [(0x18, 0xFD, 0x02), (0x09, 0x01, 0x01)] ∧
      emitted e = [(0x18, 0xFD, 0x02), (0x09, 0x01, 0x01)].map
        (fun f => zmk_ps2_mouse_movement_parse_cmd_buffer f.1 f.2.1 f.2.2) ∧
      d.cmd_idx = 0 ∧ d.cmd_buffer = ⟨0, 0, 0⟩ :=
  callback_assembles_frames [(0x18, 0xFD, 0x02), (0x09, 0x01, 0x01)] (by decide)

/-- C9: misalignment recovery.  From the initial state, any number of bytes
whose bit 3 is clear emit no event; followed by a byte `s` whose bit 3 is set
and two further bytes `x`, `y`, the whole stream emits exactly one event, the
decode of `(s, x, y)`, and ends with the cursor at 0 and an all-zero buffer. -/
theorem callback_resynchronises (junk : List Nat) (s x y : Nat)
    (hjunk : ∀ b ∈ junk, b.testBit 3 = false) (hs : s.testBit 3 = true) :
    (∃ d e, run zmk_ps2_mouse_data.initial (junk.map Input.byte) = some (d, e) ∧
      emitted e = []) ∧
    ∃ d e, run zmk_ps2_mouse_data.initial ((junk ++ [s, x, y]).map Input.byte) = some (d, e) ∧
      emitted e = [zmk_ps2_mouse_movement_parse_cmd_buffer s x y] ∧
      processCalls e = [(s, x, y)] ∧
      d.cmd_idx = 0 ∧ d.cmd_buffer = ⟨0, 0, 0⟩ := by
  obtain ⟨d, e, hrun, hd, hev, hcalls⟩ :=
    run_rejected junk hjunk zmk_ps2_mouse_data.initial rfl
  refine ⟨⟨d, e, hrun, hev⟩, cleared, e ++ frameCalls s x y, ?_, ?_, ?_, rfl, rfl⟩
  · rw [List.map_append, run_append, hrun]
    simp only [List.map_cons, List.map_nil]
    rw [run_frame_cons d s x y [] hd hs]
    simp [run]
  · rw [emitted_append, hev]
    rfl
  · rw [processCalls_append, hcalls]
    rfl

/-- Witness for C9: the misaligned bytes `0x01, 0xF7, 0x00`, then the frame
`0x18 0xFD 0x02`. -/
theorem callback_resynchronises_witness :
    (∃ d e, run zmk_ps2_mouse_data.initial ([0x01, 0xF7, 0x00].map Input.byte) = some (d, e) ∧
      emitted e = []) ∧
    ∃ d e, run zmk_ps2_mouse_data.initial
        (([0x01, 0xF7, 0x00] ++ [0x18, 0xFD, 0x02]).map Input.byte) = some (d, e) ∧
      emitted e = [zmk_ps2_mouse_movement_parse_cmd_buffer 0x18 0xFD 0x02] ∧
      processCalls e = [(0x18, 0xFD, 0x02)] ∧
      d.cmd_idx = 0 ∧ d.cmd_buffer = ⟨0, 0, 0⟩ :=
  callback_resynchronises [0x01, 0xF7, 0x00] 0x18 0xFD 0x02 (by decide) (by decide)

/-- C10: a rejected byte is discarded.  With the cursor at 0, a byte whose
bit 3 is clear is handled without emitting an event, and for every following
sequence of bytes and expiries the events emitted at each input and the cursor
after each input are the same as if the byte had not been delivered; every
input of the sequence is handled (none writes outside the buffer). -/
theorem rejected_byte_is_discarded (data : zmk_ps2_mouse_data) (byte : Nat)
    (inputs : List Input) (hidx : data.cmd_idx = 0) (hbit : byte.testBit 3 = false) :
    ∃ d e, zmk_ps2_mouse_movement_callback data byte = some (d, e) ∧
      emitted e = [] ∧
      observe d inputs = observe data inputs ∧
      (observe data inputs).length = inputs.length := by
  refine ⟨_, _, callback_reject data byte hidx hbit, rfl, ?_, ?_⟩
  · apply observe_sameFrame
    exact ⟨hidx.symm, rfl, rfl, fun hne => absurd rfl hne⟩
  · exact observe_length inputs data (Or.inl hidx)

/-- Witness for C10: the byte `0x01` rejected at cursor 0 over the buffer
`[0x11, 0x22, 0x33]`, followed by a first byte, an expiry, and a full frame. -/
theorem rejected_byte_is_discarded_witness :
    ∃ d e, zmk_ps2_mouse_movement_callback
        { cmd_buffer := ⟨0x11, 0x22, 0x33⟩, cmd_idx := 0, cmd_buffer_timeout := false } 0x01
          = some (d, e) ∧
      emitted e = [] ∧
      observe d [Input.byte 0x08, Input.expiry, Input.byte 0x18, Input.byte 0xFD,
                 Input.byte 0x02]
        = observe { cmd_buffer := ⟨0x11, 0x22, 0x33⟩, cmd_idx := 0, cmd_buffer_timeout := false }
            [Input.byte 0x08, Input.expiry, Input.byte 0x18, Input.byte 0xFD, Input.byte 0x02] ∧
      (observe { cmd_buffer := ⟨0x11, 0x22, 0x33⟩, cmd_idx := 0, cmd_buffer_timeout := false }
          [Input.byte 0x08, Input.expiry, Input.byte 0x18, Input.byte 0xFD,
           Input.byte 0x02]).length
        = [Input.byte 0x08, Input.expiry, Input.byte 0x18, Input.byte 0xFD,
           Input.byte 0x02].length :=
  rejected_byte_is_discarded
    { cmd_buffer := ⟨0x11, 0x22, 0x33⟩, cmd_idx := 0, cmd_buffer_timeout := false } 0x01
    [Input.byte 0x08, Input.expiry, Input.byte 0x18, Input.byte 0xFD, Input.byte 0x02]
    rfl (by decide)

/-! ## Invariants of runs -/

theorem run_cursorInRange (inputs : List Input) (data : zmk_ps2_mouse_data)
    (h : cursorInRange data) :
    ∃ d e, run data inputs = some (d, e) ∧ cursorInRange d := by
  induction inputs generalizing data with
  | nil => exact ⟨data, [], rfl, h⟩
  | cons i rest ih =>
    obtain ⟨d1, e1, hd, hr⟩ := deliver_cursorInRange data i h
    obtain ⟨d2, e2, hrun, hr2⟩ := ih d1 hr
    exact ⟨d2, e1 ++ e2, by simp only [run, hd, hrun], hr2⟩

theorem emitted_eq_map_processCalls (e : List Effect) :
    emitted e = (processCalls e).map
      (fun c => zmk_ps2_mouse_movement_parse_cmd_buffer c.1 c.2.1 c.2.2) := by
  induction e with
  | nil => rfl
  | cons c rest ih =>
    cases c <;> simp [emitted, processCalls, ih, zmk_ps2_mouse_movement_process_cmd]

theorem deliver_aligned (data : zmk_ps2_mouse_data) (i : Input)
    (hr : cursorInRange data)
    (ha : data.cmd_idx ≠ 0 → data.cmd_buffer.b0.testBit 3 = true) :
    ∃ d e, deliver data i = some (d, e) ∧ cursorInRange d ∧
      (d.cmd_idx ≠ 0 → d.cmd_buffer.b0.testBit 3 = true) ∧
      ∀ c ∈ processCalls e, c.1.testBit 3 = true := by
  cases i with
  | expiry =>
    exact ⟨_, _, rfl, Or.inl rfl, fun hne => absurd rfl hne, fun c hc => by cases hc⟩
  | byte b =>
    simp only [deliver]
    rcases hr with h0 | h1 | h2
    · cases hbit : b.testBit 3 with
      | false =>
        exact ⟨_, _, callback_reject data b h0 hbit, Or.inl rfl,
          fun hne => absurd rfl hne, fun c hc => by cases hc⟩
      | true =>
        exact ⟨_, _, callback_first data b h0 hbit, Or.inr (Or.inl rfl),
          fun _ => hbit, fun c hc => by cases hc⟩
    · have hb0 : data.cmd_buffer.b0.testBit 3 = true := ha (by rw [h1]; decide)
      exact ⟨_, _, callback_second data b h1, Or.inr (Or.inr rfl),
        fun _ => hb0, fun c hc => by cases hc⟩
    · have hb0 : data.cmd_buffer.b0.testBit 3 = true := ha (by rw [h2]; decide)
      refine ⟨_, _, callback_third data b h2, Or.inl rfl, fun hne => absurd rfl hne, ?_⟩
      intro c hc
      simp only [processCalls, List.mem_singleton] at hc
      rw [hc]
      exact hb0

theorem run_aligned (inputs : List Input) (data : zmk_ps2_mouse_data)
    (hr : cursorInRange data)
    (ha : data.cmd_idx ≠ 0 → data.cmd_buffer.b0.testBit 3 = true) :
    ∃ d e, run data inputs = some (d, e) ∧ cursorInRange d ∧
      (d.cmd_idx ≠ 0 → d.cmd_buffer.b0.testBit 3 = true) ∧
      ∀ c ∈ processCalls e, c.1.testBit 3 = true := by
  induction inputs generalizing data with
  | nil => exact ⟨data, [], rfl, hr, ha, fun c hc => by cases hc⟩
  | cons i rest ih =>
    obtain ⟨d1, e1, hd, hr1, ha1, hc1⟩ := deliver_aligned data i hr ha
    obtain ⟨d2, e2, hrun, hr2, ha2, hc2⟩ := ih d1 hr1 ha1
    refine ⟨d2, e1 ++ e2, by simp only [run, hd, hrun], hr2, ha2, ?_⟩
    intro c hc
    rw [processCalls_append, List.mem_append] at hc
    rcases hc with hc | hc
    · exact hc1 c hc
    · exact hc2 c hc

theorem deliver_timer (data d : zmk_ps2_mouse_data) (i : Input) (e : List Effect)
    (h : deliver data i = some (d, e)) :
    cursorInRange d ∧ (d.cmd_buffer_timeout = true ↔ (d.cmd_idx = 1 ∨ d.cmd_idx = 2)) := by
  cases i with
  | expiry =>
    simp only [deliver, zmk_ps2_mouse_movement_cmd_timout, Option.some.injEq] at h
    obtain ⟨rfl, -⟩ := Prod.mk.inj h
    exact ⟨Or.inl rfl, by simp [zmk_ps2_mouse_movement_reset_cmd_buffer]⟩
  | byte b =>
    simp only [deliver] at h
    by_cases h0 : data.cmd_idx = 0
    · cases hbit : b.testBit 3 with
      | false =>
        rw [callback_reject data b h0 hbit, Option.some.injEq] at h
        obtain ⟨rfl, -⟩ := Prod.mk.inj h
        exact ⟨Or.inl rfl, by simp [zmk_ps2_mouse_movement_reset_cmd_buffer]⟩
      | true =>
        rw [callback_first data b h0 hbit, Option.some.injEq] at h
        obtain ⟨rfl, -⟩ := Prod.mk.inj h
        exact ⟨Or.inr (Or.inl rfl), by simp [zmk_ps2_mouse_movement_reset_cmd_buffer]⟩
    · by_cases h1 : data.cmd_idx = 1
      · rw [callback_second data b h1, Option.some.injEq] at h
        obtain ⟨rfl, -⟩ := Prod.mk.inj h
        exact ⟨Or.inr (Or.inr rfl), by simp [zmk_ps2_mouse_movement_reset_cmd_buffer]⟩
      · by_cases h2 : data.cmd_idx = 2
        · rw [callback_third data b h2, Option.some.injEq] at h
          obtain ⟨rfl, -⟩ := Prod.mk.inj h
          exact ⟨Or.inl rfl, by simp [zmk_ps2_mouse_movement_reset_cmd_buffer]⟩
        · rw [callback_out_of_bounds data b h0 h1 h2] at h
          cases h

theorem deliverTimed_eq_deliver (data d : zmk_ps2_mouse_data) (i : Input) (e : List Effect)
    (h : deliverTimed data i = some (d, e)) : deliver data i = some (d, e) := by
  cases i with
  | byte b => exact h
  | expiry =>
    simp only [deliverTimed] at h
    split at h
    · exact h
    · cases h

theorem runTimed_timer (inputs : List Input) (data d : zmk_ps2_mouse_data) (e : List Effect)
    (hr : cursorInRange data)
    (ht : data.cmd_buffer_timeout = true ↔ (data.cmd_idx = 1 ∨ data.cmd_idx = 2))
    (h : runTimed data inputs = some (d, e)) :
    cursorInRange d ∧ (d.cmd_buffer_timeout = true ↔ (d.cmd_idx = 1 ∨ d.cmd_idx = 2)) := by
  induction inputs generalizing data e with
  | nil =>
    simp only [runTimed, Option.some.injEq] at h
    obtain ⟨rfl, -⟩ := Prod.mk.inj h
    exact ⟨hr, ht⟩
  | cons i rest ih =>
    simp only [runTimed] at h
    cases hd : deliverTimed data i with
    | none => rw [hd] at h; cases h
    | some p =>
      obtain ⟨d1, e1⟩ := p
      rw [hd] at h
      simp only at h
      obtain ⟨hr1, ht1⟩ := deliver_timer data d1 i e1 (deliverTimed_eq_deliver data d1 i e1 hd)
      cases hrest : runTimed d1 rest with
      | none => rw [hrest] at h; cases h
      | some q =>
        obtain ⟨d2, e2⟩ := q
        rw [hrest] at h
        simp only [Option.some.injEq] at h
        obtain ⟨rfl, -⟩ := Prod.mk.inj h
        exact ih d1 e2 hr1 ht1 hrest

/-! ## Timer and invariants: claims C11, C12, C16, C17, C18 -/

/-- C11: for every state whose cursor addresses the buffer and every byte, the
first call of the callback is the cancellation of the timeout; a timeout of
500 ms is scheduled, as the last call, exactly when the byte is accepted and
does not complete a frame (cursor 0 with bit 3 set, or cursor 1), which is
exactly when the resulting cursor is 1 or 2; otherwise (a rejected first byte,
a third byte) no timeout is scheduled and the work item is left cancelled. -/
theorem callback_timer_discipline (data : zmk_ps2_mouse_data) (byte : Nat)
    (hr : data.cmd_idx = 0 ∨ data.cmd_idx = 1 ∨ data.cmd_idx = 2) :
    ∃ d rest,
      zmk_ps2_mouse_movement_callback data byte = some (d, Effect.cancel_timeout :: rest) ∧
      (((data.cmd_idx = 0 ∧ byte.testBit 3 = true) ∨ data.cmd_idx = 1) ↔
        (d.cmd_idx = 1 ∨ d.cmd_idx = 2)) ∧
      ((d.cmd_idx = 1 ∨ d.cmd_idx = 2) →
        rest = [Effect.schedule_timeout 500] ∧ d.cmd_buffer_timeout = true) ∧
      (¬ (d.cmd_idx = 1 ∨ d.cmd_idx = 2) →
        (∀ delay_ms, Effect.schedule_timeout delay_ms ∉ rest) ∧
        d.cmd_buffer_timeout = false) := by
  rcases hr with h0 | h1 | h2
  · cases hbit : byte.testBit 3 with
    | false =>
      refine ⟨_, _, callback_reject data byte h0 hbit, ?_, ?_, ?_⟩ <;> simp [h0]
    | true =>
      refine ⟨_, _, callback_first data byte h0 hbit, ?_, ?_, ?_⟩ <;>
        simp [h0, PS2_MOUSE_TIMEOUT_CMD_BUFFER]
  · refine ⟨_, _, callback_second data byte h1, ?_, ?_, ?_⟩ <;>
      simp [h1, PS2_MOUSE_TIMEOUT_CMD_BUFFER]
  · refine ⟨_, _, callback_third data byte h2, ?_, ?_, ?_⟩ <;> simp [h2]

/-- Witness for C11: the byte `0xFD` at cursor 1 with the timeout pending. -/
theorem callback_timer_discipline_witness :
    ∃ d rest,
      zmk_ps2_mouse_movement_callback
          { cmd_buffer := ⟨0x18, 0, 0⟩, cmd_idx := 1, cmd_buffer_timeout := true } 0xFD
        = some (d, Effect.cancel_timeout :: rest) ∧
      ((((1 : Int) = 0 ∧ Nat.testBit 0xFD 3 = true) ∨ (1 : Int) = 1) ↔
        (d.cmd_idx = 1 ∨ d.cmd_idx = 2)) ∧
      ((d.cmd_idx = 1 ∨ d.cmd_idx = 2) →
        rest = [Effect.schedule_timeout 500] ∧ d.cmd_buffer_timeout = true) ∧
      (¬ (d.cmd_idx = 1 ∨ d.cmd_idx = 2) →
        (∀ delay_ms, Effect.schedule_timeout delay_ms ∉ rest) ∧
        d.cmd_buffer_timeout = false) :=
  callback_timer_discipline
    { cmd_buffer := ⟨0x18, 0, 0⟩, cmd_idx := 1, cmd_buffer_timeout := true } 0xFD
    (Or.inr (Or.inl rfl))

/-- C12: cursor invariant.  Every sequence of bytes and expiries delivered
from the initial state is handled, and the state it leads to has `cmd_idx`
equal to 0, 1 or 2, so that the store `cmd_buffer[cmd_idx] = byte` of the next
callback is inside the three-byte buffer. -/
theorem cursor_invariant (inputs : List Input) :
    ∃ d e, run zmk_ps2_mouse_data.initial inputs = some (d, e) ∧
      (d.cmd_idx = 0 ∨ d.cmd_idx = 1 ∨ d.cmd_idx = 2) ∧
      ∀ byte, d.cmd_buffer.set d.cmd_idx byte ≠ none := by
  obtain ⟨d, e, hrun, hr⟩ := run_cursorInRange inputs zmk_ps2_mouse_data.initial (Or.inl rfl)
  refine ⟨d, e, hrun, hr, ?_⟩
  intro byte
  rcases hr with h | h | h <;> simp [CmdBuffer.set, h]

/-- C16: no resend is requested.  For every state whose cursor addresses the
buffer and every byte, the callback makes no call of `ps2_write` (in particular
none with the resend opcode `0xfe`), and a byte rejected at cursor 0 leads to
no call of `zmk_ps2_mouse_movement_process_cmd`, so no event is emitted. -/
theorem callback_no_resend (data : zmk_ps2_mouse_data) (byte : Nat)
    (hr : data.cmd_idx = 0 ∨ data.cmd_idx = 1 ∨ data.cmd_idx = 2) :
    ∃ d e, zmk_ps2_mouse_movement_callback data byte = some (d, e) ∧
      (∀ b, Effect.ps2_write b ∉ e) ∧
      Effect.ps2_write 0xfe ∉ e ∧
      (data.cmd_idx = 0 → byte.testBit 3 = false →
        emitted e = [] ∧ processCalls e = []) := by
  rcases hr with h0 | h1 | h2
  · cases hbit : byte.testBit 3 with
    | false =>
      refine ⟨_, _, callback_reject data byte h0 hbit, ?_, ?_, ?_⟩
      · intro b; simp
      · simp
      · intro _ _; exact ⟨rfl, rfl⟩
    | true =>
      refine ⟨_, _, callback_first data byte h0 hbit, ?_, ?_, ?_⟩
      · intro b; simp
      · simp
      · intro _ hf; cases hf
  · refine ⟨_, _, callback_second data byte h1, ?_, ?_, ?_⟩
    · intro b; simp
    · simp
    · intro hz; rw [h1] at hz; exact absurd hz (by decide)
  · refine ⟨_, _, callback_third data byte h2, ?_, ?_, ?_⟩
    · intro b; simp
    · simp
    · intro hz; rw [h2] at hz; exact absurd hz (by decide)

/-- Witness for C16: the byte `0x01` (bit 3 clear) at cursor 0. -/
theorem callback_no_resend_witness :
    ∃ d e, zmk_ps2_mouse_movement_callback zmk_ps2_mouse_data.initial 0x01 = some (d, e) ∧
      (∀ b, Effect.ps2_write b ∉ e) ∧
      Effect.ps2_write 0xfe ∉ e ∧
      (zmk_ps2_mouse_data.initial.cmd_idx = 0 → Nat.testBit 0x01 3 = false →
        emitted e = [] ∧ processCalls e = []) :=
  callback_no_resend zmk_ps2_mouse_data.initial 0x01 (Or.inl rfl)

/-- C17: alignment invariant.  Every sequence of bytes and expiries delivered
from the initial state is handled; in the state it leads to, a cursor of 1 or 2
implies that bit 3 of `cmd_buffer[0]` is set; and every event emitted on the
way is the decode of a frame whose state byte has bit 3 set. -/
theorem alignment_invariant (inputs : List Input) :
    ∃ d e, run zmk_ps2_mouse_data.initial inputs = some (d, e) ∧
      ((d.cmd_idx = 1 ∨ d.cmd_idx = 2) → d.cmd_buffer.b0.testBit 3 = true) ∧
      emitted e = (processCalls e).map
        (fun c => zmk_ps2_mouse_movement_parse_cmd_buffer c.1 c.2.1 c.2.2) ∧
      ∀ c ∈ processCalls e, c.1.testBit 3 = true := by
  obtain ⟨d, e, hrun, _, ha, hc⟩ :=
    run_aligned inputs zmk_ps2_mouse_data.initial (Or.inl rfl) (fun hne => absurd rfl hne)
  refine ⟨d, e, hrun, ?_, emitted_eq_map_processCalls e, hc⟩
  intro h
  apply ha
  rcases h with h | h <;> rw [h] <;> decide

/-- C18: pending-timeout invariant.  With the work item pending after
`k_work_schedule`, not pending after `k_work_cancel_delayable` and after it has
fired, and an expiry possible only while it is pending, every state reached
from the initial state (cursor 0, not pending) by bytes and expiries has the
work item pending exactly when the cursor is 1 or 2; with the cursor at 0 it is
not pending. -/
theorem pending_timeout_invariant (inputs : List Input) (d : zmk_ps2_mouse_data)
    (e : List Effect) (h : runTimed zmk_ps2_mouse_data.initial inputs = some (d, e)) :
    (d.cmd_buffer_timeout = true ↔ (d.cmd_idx = 1 ∨ d.cmd_idx = 2)) ∧
    (d.cmd_idx = 0 → d.cmd_buffer_timeout = false) ∧
    (d.cmd_idx = 0 ∨ d.cmd_idx = 1 ∨ d.cmd_idx = 2) := by
  obtain ⟨hr, ht⟩ := runTimed_timer inputs zmk_ps2_mouse_data.initial d e (Or.inl rfl)
    (by decide) h
  refine ⟨ht, ?_, hr⟩
  intro h0
  cases hb : d.cmd_buffer_timeout with
  | false => rfl
  | true =>
    rcases ht.mp hb with h1 | h2
    · rw [h0] at h1; exact absurd h1 (by decide)
    · rw [h0] at h2; exact absurd h2 (by decide)

/-- Witness for C18: a first byte, the expiry of its timeout, then two bytes
of a new frame, which leave the cursor at 2 with the timeout pending. -/
theorem pending_timeout_invariant_witness :
    runTimed zmk_ps2_mouse_data.initial
        [Input.byte 0x18, Input.expiry, Input.byte 0x08, Input.byte 0x01]
      = some ({ cmd_buffer := ⟨0x08, 0x01, 0⟩, cmd_idx := 2, cmd_buffer_timeout := true },
              [Effect.cancel_timeout, Effect.schedule_timeout 500,
               Effect.cancel_timeout, Effect.schedule_timeout 500,
               Effect.cancel_timeout, Effect.schedule_timeout 500]) ∧
    ((true = true ↔ ((2 : Int) = 1 ∨ (2 : Int) = 2)) ∧
     ((2 : Int) = 0 → true = false) ∧
     ((2 : Int) = 0 ∨ (2 : Int) = 1 ∨ (2 : Int) = 2)) :=
  have hrun : runTimed zmk_ps2_mouse_data.initial
        [Input.byte 0x18, Input.expiry, Input.byte 0x08, Input.byte 0x01]
      = some ({ cmd_buffer := ⟨0x08, 0x01, 0⟩, cmd_idx := 2, cmd_buffer_timeout := true },
              [Effect.cancel_timeout, Effect.schedule_timeout 500,
               Effect.cancel_timeout, Effect.schedule_timeout 500,
               Effect.cancel_timeout, Effect.schedule_timeout 500]) := by decide
  ⟨hrun, pending_timeout_invariant _ _ _ hrun⟩

/-! ## Bring-up thread: the loop and what follows it -/

theorem stream_mode_enable_snd (dev : Ps2Device) (st : InitState) :
    (zmk_ps2_stream_mode_enable dev st).2
      = { st with writes := st.writes + 1, calls := st.calls ++ [InitCall.ps2_write 0xea] } := by
  simp only [zmk_ps2_stream_mode_enable, ps2_write]
  split <;> rfl

theorem stream_mode_enable_reporting_snd (dev : Ps2Device) (st : InitState) :
    (zmk_ps2_stream_mode_enable_reporting dev st).2
      = { st with writes := st.writes + 1, calls := st.calls ++ [InitCall.ps2_write 0xf4] } := by
  simp only [zmk_ps2_stream_mode_enable_reporting, ps2_write]
  split <;> rfl

theorem self_test_loop_retry (dev : Ps2Device) (n fuel : Nat) (st : InitState)
    (hfail : ∀ k, k < n → dev.read_err (st.reads + k) ≠ 0)
    (hok : dev.read_err (st.reads + n) = 0) (hfuel : n < fuel) :
    self_test_loop dev fuel st
      = some { reads := st.reads + n + 1, writes := st.writes,
               calls := st.calls ++ selfTestRetries n ++ [InitCall.ps2_read] } := by
  induction n generalizing fuel st with
  | zero =>
    obtain ⟨f, rfl⟩ : ∃ f, fuel = f + 1 := ⟨fuel - 1, by omega⟩
    have h0 : dev.read_err st.reads = 0 := by simpa using hok
    simp [self_test_loop, ps2_read, h0, selfTestRetries]
  | succ n ih =>
    obtain ⟨f, rfl⟩ : ∃ f, fuel = f + 1 := ⟨fuel - 1, by omega⟩
    have h0 : dev.read_err st.reads ≠ 0 := by simpa using hfail 0 (Nat.succ_pos n)
    have hstep := ih f (k_sleep 5 (ps2_read dev st).2.2)
      (fun k hk => by
        have := hfail (k + 1) (Nat.succ_lt_succ hk)
        simpa [k_sleep, ps2_read, Nat.add_assoc, Nat.add_comm 1 k] using this)
      (by simpa [k_sleep, ps2_read, Nat.add_assoc, Nat.add_comm 1 n] using hok)
      (by omega)
    simp only [self_test_loop, ps2_read, h0, ne_eq, not_false_eq_true, if_true]
    simp only [ps2_read] at hstep
    rw [hstep]
    simp [k_sleep, selfTestRetries, Nat.add_assoc, Nat.add_comm 1 n]

theorem self_test_loop_calls (dev : Ps2Device) (fuel : Nat) (st st1 : InitState)
    (h : self_test_loop dev fuel st = some st1) :
    ∃ ops, st1.calls = st.calls ++ ops ∧
      ∀ c ∈ ops, c = InitCall.ps2_read ∨ c = InitCall.k_sleep 5 := by
  induction fuel generalizing st with
  | zero => simp [self_test_loop] at h
  | succ f ih =>
    simp only [self_test_loop, ps2_read] at h
    split at h
    · obtain ⟨ops, hops, hall⟩ := ih _ h
      refine ⟨InitCall.ps2_read :: InitCall.k_sleep 5 :: ops, ?_, ?_⟩
      · rw [hops]; simp [k_sleep]
      · intro c hc
        simp only [List.mem_cons] at hc
        rcases hc with hc | hc | hc
        · exact Or.inl hc
        · exact Or.inr hc
        · exact hall c hc
    · simp only [Option.some.injEq] at h
      refine ⟨[InitCall.ps2_read], ?_, ?_⟩
      · rw [← h]
      · intro c hc
        simp only [List.mem_singleton] at hc
        exact Or.inl hc

theorem init_thread_after_loop (dev : Ps2Device) (fuel : Nat) (st1 : InitState)
    (h : self_test_loop dev fuel InitState.start = some st1) :
    zmk_ps2_mouse_init_thread dev fuel
      = some { reads := st1.reads + 1, writes := st1.writes + 2,
               calls := st1.calls ++
                 [InitCall.ps2_read, InitCall.ps2_write 0xea, InitCall.k_sleep 1,
                  InitCall.ps2_write 0xf4, InitCall.k_sleep 2, InitCall.ps2_config] ++
                 (if dev.config_err ≠ 0 then []
                  else [InitCall.ps2_enable_callback, InitCall.k_work_init_delayable]) } := by
  simp only [zmk_ps2_mouse_init_thread, h, ps2_read, stream_mode_enable_snd, k_sleep,
    stream_mode_enable_reporting_snd, ps2_config, ps2_enable_callback, k_work_init_delayable]
  split <;> simp

theorem count_selfTestRetries (n : Nat) :
    (selfTestRetries n).count InitCall.ps2_read = n ∧
    (selfTestRetries n).count (InitCall.k_sleep 5) = n := by
  induction n with
  | zero => exact ⟨rfl, rfl⟩
  | succ n ih =>
    obtain ⟨h1, h2⟩ := ih
    simp [selfTestRetries, List.count_cons, h1, h2]

theorem length_selfTestRetries (n : Nat) : (selfTestRetries n).length = 2 * n := by
  induction n with
  | zero => rfl
  | succ m ih => simp only [selfTestRetries, List.length_cons]; omega

/-! ## Bring-up thread: claims C13, C14, C19 -/

/-- C13: handshake order.  Once the self-test loop has ended (its last read
succeeded), the thread ends as well and makes, after the calls of the loop and
whatever the device-id read and the two writes return, exactly the calls: one
read, write `0xEA`, sleep 1 s, write `0xF4`, sleep 2 s, `ps2_config`; what
follows the registration is nothing or the enabling of the callback and the
initialisation of the work item, so no read follows either write. -/
theorem init_thread_handshake_order (dev : Ps2Device) (fuel : Nat) (st1 : InitState)
    (h : self_test_loop dev fuel InitState.start = some st1) :
    ∃ st2 tail, zmk_ps2_mouse_init_thread dev fuel = some st2 ∧
      st2.calls = st1.calls ++
        [InitCall.ps2_read, InitCall.ps2_write 0xEA, InitCall.k_sleep 1,
         InitCall.ps2_write 0xF4, InitCall.k_sleep 2, InitCall.ps2_config] ++ tail ∧
      (tail = [] ∨ tail = [InitCall.ps2_enable_callback, InitCall.k_work_init_delayable]) ∧
      InitCall.ps2_read ∉ tail ∧
      st2.reads = st1.reads + 1 ∧
      st2.writes = st1.writes + 2 := by
  refine ⟨_, _, init_thread_after_loop dev fuel st1 h, rfl, ?_, ?_, rfl, rfl⟩
  · split
    · exact Or.inl rfl
    · exact Or.inr rfl
  · split <;> simp

/-- Witness for C13: the self-test read succeeds at once, the device-id read
and both writes fail, the registration succeeds. -/
theorem init_thread_handshake_order_witness :
    ∃ st2 tail, zmk_ps2_mouse_init_thread (Ps2Device.scripted [0, -5] (-5) 0 0) 1 = some st2 ∧
      st2.calls = [InitCall.ps2_read] ++
        [InitCall.ps2_read, InitCall.ps2_write 0xEA, InitCall.k_sleep 1,
         InitCall.ps2_write 0xF4, InitCall.k_sleep 2, InitCall.ps2_config] ++ tail ∧
      (tail = [] ∨ tail = [InitCall.ps2_enable_callback, InitCall.k_work_init_delayable]) ∧
      InitCall.ps2_read ∉ tail ∧
      st2.reads = 1 + 1 ∧
      st2.writes = 0 + 2 :=
  init_thread_handshake_order (Ps2Device.scripted [0, -5] (-5) 0 0) 1
    { reads := 1, writes := 0, calls := [InitCall.ps2_read] } rfl

/-- C14: handshake retry.  If the first `n` self-test reads fail and the next
one succeeds (whatever byte it delivers), the loop ends, given at least `n + 1`
iterations, after exactly `n + 1` reads and `n` sleeps of 5 seconds, one after
each failed read and none after the successful one; the thread then makes the
device-id read, and no further read. -/
theorem init_thread_self_test_retry (dev : Ps2Device) (n fuel : Nat)
    (hfail : ∀ k, k < n → dev.read_err k ≠ 0) (hok : dev.read_err n = 0)
    (hfuel : n < fuel) :
    self_test_loop dev fuel InitState.start
      = some { reads := n + 1, writes := 0,
               calls := selfTestRetries n ++ [InitCall.ps2_read] } ∧
    (selfTestRetries n ++ [InitCall.ps2_read]).count InitCall.ps2_read = n + 1 ∧
    (selfTestRetries n ++ [InitCall.ps2_read]).count (InitCall.k_sleep 5) = n ∧
    (selfTestRetries n ++ [InitCall.ps2_read]).length = 2 * n + 1 ∧
    ∃ st rest, zmk_ps2_mouse_init_thread dev fuel = some st ∧
      st.calls = selfTestRetries n ++ [InitCall.ps2_read] ++ (InitCall.ps2_read :: rest) ∧
      InitCall.ps2_read ∉ rest ∧
      InitCall.k_sleep 5 ∉ rest ∧
      st.reads = n + 2 := by
  have hloop : self_test_loop dev fuel InitState.start
      = some { reads := n + 1, writes := 0,
               calls := selfTestRetries n ++ [InitCall.ps2_read] } := by
    have := self_test_loop_retry dev n fuel InitState.start
      (fun k hk => by simpa [InitState.start] using hfail k hk)
      (by simpa [InitState.start] using hok) hfuel
    simpa [InitState.start] using this
  obtain ⟨hc1, hc2⟩ := count_selfTestRetries n
  have hlen := length_selfTestRetries n
  refine ⟨hloop, ?_, ?_, ?_, _,
    [InitCall.ps2_write 0xea, InitCall.k_sleep 1, InitCall.ps2_write 0xf4,
     InitCall.k_sleep 2, InitCall.ps2_config] ++
      (if dev.config_err ≠ 0 then []
       else [InitCall.ps2_enable_callback, InitCall.k_work_init_delayable]),
    init_thread_after_loop dev fuel _ hloop, ?_, ?_, ?_, rfl⟩
  · simp [List.count_append, hc1]
  · simp [List.count_append, hc2]
  · simp [hlen]
  · simp
  · split <;> simp
  · split <;> simp

/-- Witness for C14 with `n = 2`: two failed self-test reads, then success. -/
theorem init_thread_self_test_retry_witness :
    self_test_loop (Ps2Device.scripted [-5, -5] 0 0 0) 3 InitState.start
      = some { reads := 3, writes := 0,
               calls := [InitCall.ps2_read, InitCall.k_sleep 5,
                         InitCall.ps2_read, InitCall.k_sleep 5, InitCall.ps2_read] } ∧
    ∃ st rest, zmk_ps2_mouse_init_thread (Ps2Device.scripted [-5, -5] 0 0 0) 3 = some st ∧
      st.calls = [InitCall.ps2_read, InitCall.k_sleep 5, InitCall.ps2_read,
                  InitCall.k_sleep 5, InitCall.ps2_read] ++ (InitCall.ps2_read :: rest) ∧
      InitCall.ps2_read ∉ rest ∧
      InitCall.k_sleep 5 ∉ rest ∧
      st.reads = 4 :=
  have h := init_thread_self_test_retry (Ps2Device.scripted [-5, -5] 0 0 0) 2 3
    (by decide) (by decide) (by decide)
  ⟨h.1, h.2.2.2.2⟩

/-- C19: registration failure aborts bring-up.  Once the self-test loop has
ended the thread ends; if `ps2_config` fails, its last call is `ps2_config` and
it makes no call of `ps2_enable_callback` or `k_work_init_delayable`; if
`ps2_config` succeeds, its calls end with `ps2_config`, `ps2_enable_callback`,
`k_work_init_delayable`, none of which occurs earlier, whatever
`ps2_enable_callback` returns. -/
theorem init_thread_registration (dev : Ps2Device) (fuel : Nat) (st1 : InitState)
    (h : self_test_loop dev fuel InitState.start = some st1) :
    ∃ st2, zmk_ps2_mouse_init_thread dev fuel = some st2 ∧
      (dev.config_err ≠ 0 →
        st2.calls.getLast? = some InitCall.ps2_config ∧
        InitCall.ps2_enable_callback ∉ st2.calls ∧
        InitCall.k_work_init_delayable ∉ st2.calls) ∧
      (dev.config_err = 0 →
        ∃ pre, st2.calls = pre ++ [InitCall.ps2_config, InitCall.ps2_enable_callback,
                                   InitCall.k_work_init_delayable] ∧
          InitCall.ps2_config ∉ pre ∧
          InitCall.ps2_enable_callback ∉ pre ∧
          InitCall.k_work_init_delayable ∉ pre) := by
  obtain ⟨ops, hops, hall⟩ := self_test_loop_calls dev fuel InitState.start st1 h
  have hcalls : st1.calls = ops := by simpa [InitState.start] using hops
  have hnot : ∀ c, c ≠ InitCall.ps2_read → c ≠ InitCall.k_sleep 5 → c ∉ st1.calls := by
    intro c h1 h2 hc
    rw [hcalls] at hc
    rcases hall c hc with hc | hc
    · exact h1 hc
    · exact h2 hc
  have hcfg := hnot InitCall.ps2_config (by decide) (by decide)
  have hen := hnot InitCall.ps2_enable_callback (by decide) (by decide)
  have hwk := hnot InitCall.k_work_init_delayable (by decide) (by decide)
  refine ⟨_, init_thread_after_loop dev fuel st1 h, ?_, ?_⟩
  · intro hne
    simp [hne, hen, hwk]
  · intro he
    refine ⟨st1.calls ++ [InitCall.ps2_read, InitCall.ps2_write 0xea, InitCall.k_sleep 1,
      InitCall.ps2_write 0xf4, InitCall.k_sleep 2], ?_, ?_, ?_, ?_⟩
    · simp [he]
    · simp [hcfg]
    · simp [hen]
    · simp [hwk]

/-- Witness for C19: registration fails on one transport; on another it
succeeds while the enabling of the callback fails. -/
theorem init_thread_registration_witness :
    (∃ st2, zmk_ps2_mouse_init_thread (Ps2Device.scripted [] 0 (-5) 0) 1 = some st2 ∧
      ((-5 : Int) ≠ 0 →
        st2.calls.getLast? = some InitCall.ps2_config ∧
        InitCall.ps2_enable_callback ∉ st2.calls ∧
        InitCall.k_work_init_delayable ∉ st2.calls) ∧
      ((-5 : Int) = 0 →
        ∃ pre, st2.calls = pre ++ [InitCall.ps2_config, InitCall.ps2_enable_callback,
                                   InitCall.k_work_init_delayable] ∧
          InitCall.ps2_config ∉ pre ∧
          InitCall.ps2_enable_callback ∉ pre ∧
          InitCall.k_work_init_delayable ∉ pre)) ∧
    (∃ st2, zmk_ps2_mouse_init_thread (Ps2Device.scripted [] 0 0 (-5)) 1 = some st2 ∧
      ((0 : Int) ≠ 0 →
        st2.calls.getLast? = some InitCall.ps2_config ∧
        InitCall.ps2_enable_callback ∉ st2.calls ∧
        InitCall.k_work_init_delayable ∉ st2.calls) ∧
      ((0 : Int) = 0 →
        ∃ pre, st2.calls = pre ++ [InitCall.ps2_config, InitCall.ps2_enable_callback,
                                   InitCall.k_work_init_delayable] ∧
          InitCall.ps2_config ∉ pre ∧
          InitCall.ps2_enable_callback ∉ pre ∧
          InitCall.k_work_init_delayable ∉ pre)) :=
  ⟨init_thread_registration (Ps2Device.scripted [] 0 (-5) 0) 1
     { reads := 1, writes := 0, calls := [InitCall.ps2_read] } rfl,
   init_thread_registration (Ps2Device.scripted [] 0 0 (-5)) 1
     { reads := 1, writes := 0, calls := [InitCall.ps2_read] } rfl⟩

end Ps2Mouse
